import Mathlib

/-!
Verification development for the `jsonutils` Go package (github.com/diegommm/jsonutils).

The repository contains two components: `TypeOf` (typeof.go), a JSON type
sniffer built on `encoding/json`'s tokenizer, and `Payload` (payload.go), a
configurable variant container implementing `json.Unmarshaler`.

This file gives a shallow embedding of those components.  Byte slices
(`[]byte`) are `List Nat` (each element a byte value; all inputs exercised
here are ASCII, where UTF-8 bytes and code points coincide).  The parts of
the Go standard library that the package calls (the `encoding/json` tokenizer
and validity scanner, `json.Unmarshal` dispatch for the concrete decode
targets the package uses, and the `strconv` parsers) are modelled explicitly
below, following the standard library's documented behaviour; each such
definition says in its doc comment which library function it models.
-/

set_option maxRecDepth 40000

namespace Jsonutils

/-- A single byte of a Go `[]byte` value. -/
abbrev Byte := Nat

/-- The bytes of an ASCII string (code points = UTF-8 bytes for ASCII). -/
def bytesOf (s : String) : List Byte := s.data.map Char.toNat

/-- `JSONType` from jsonutils.go: `InvalidJSON, Object, Array, Null, String,
Number, Boolean` (the names of the snapshot that payload.go compiles against;
the older snapshot calls the sentinel `Invalid`). -/
inductive JSONType
  | InvalidJSON
  | Object
  | Array
  | Null
  | String
  | Number
  | Boolean
deriving DecidableEq

/-- `GoMapping` from jsonutils.go: which slot of a `Payload` holds the
decoded value. -/
inductive GoMapping
  | GoInvalidMapping
  | GoOther
  | GoNil
  | GoString
  | GoInt
  | GoFloat
  | GoUint
  | GoBool
deriving DecidableEq

/-- The errors that can surface from `TypeOf` and `Payload.UnmarshalJSON`.
The first four are the package's own `Error` constants; the rest model the
distinct error values produced by the Go standard library on the paths the
package exercises. -/
inductive JErr
  /-- `ErrEmpty` ("empty input"). -/
  | empty
  /-- `ErrUnknownType` ("unknown type"). -/
  | unknownType
  /-- `ErrUnexpectedType`. -/
  | unexpectedType
  /-- `ErrUnexpectedMapping` (carried by the panic in `panicIfNot`). -/
  | unexpectedMapping
  /-- An `encoding/json` `*SyntaxError` (e.g. "invalid character ... looking
  for beginning of value"). -/
  | synErr
  /-- `io.EOF`, returned by `Decoder.Token` on input with no token. -/
  | eofErr
  /-- `io.ErrUnexpectedEOF`, returned when input ends inside a literal. -/
  | unexpectedEOFErr
  /-- An `encoding/json` `*UnmarshalTypeError` (wrong shape for the decode
  target, or a number literal that overflows `float64` in `convertNumber`). -/
  | typeErr
  /-- An `encoding/json` `*InvalidUnmarshalError` ("json: Unmarshal(nil)"). -/
  | nilTargetErr
  /-- A `strconv.NumError` wrapping `ErrSyntax`. -/
  | numSynErr
  /-- A `strconv.NumError` wrapping `ErrRange`. -/
  | numRangeErr
  /-- `strconv.ErrSyntax` from `strconv.Unquote`. -/
  | quoteErr
deriving DecidableEq

/-- JSON whitespace, as accepted by `encoding/json`'s `isSpace`:
space, tab, newline, carriage return. -/
def isWS (c : Byte) : Bool := c == 32 || c == 9 || c == 10 || c == 13

/-- ASCII decimal digit. -/
def isDigit (c : Byte) : Bool := 48 ≤ c && c ≤ 57

/-- ASCII hexadecimal digit. -/
def isHexDigit (c : Byte) : Bool :=
  isDigit c || (97 ≤ c && c ≤ 102) || (65 ≤ c && c ≤ 70)

/-- Drop leading JSON whitespace (the scanner's `scanSkipSpace` /
`Decoder.peek` behaviour). -/
def skipWS : List Byte → List Byte
  | [] => []
  | c :: r => if isWS c then skipWS r else c :: r

/-- Scan the body of a JSON string literal (the opening quote already
consumed), per the `encoding/json` scanner's `stateInString`/`stateInStringEsc`
rules: any byte except a control byte may appear; `\` introduces one of the
escapes `" \ / b f n r t` or `u` followed by four hex digits.  Returns the
input after the closing quote; ending the input inside the string is
`io.ErrUnexpectedEOF`, an invalid byte is a `*SyntaxError`. -/
def scanStr : Nat → List Byte → Except JErr (List Byte)
  | 0, _ => .error .unexpectedEOFErr
  | _ + 1, [] => .error .unexpectedEOFErr
  | fuel + 1, c :: r =>
    if c == 34 then .ok r
    else if c == 92 then
      match r with
      | [] => .error .unexpectedEOFErr
      | e :: r2 =>
        if e == 34 || e == 92 || e == 47 || e == 98 || e == 102 ||
            e == 110 || e == 114 || e == 116 then
          scanStr fuel r2
        else if e == 117 then
          match r2 with
          | h1 :: h2 :: h3 :: h4 :: r3 =>
            if isHexDigit h1 && isHexDigit h2 && isHexDigit h3 && isHexDigit h4
            then scanStr fuel r3
            else .error .synErr
          | rest =>
            if rest.all isHexDigit then .error .unexpectedEOFErr
            else .error .synErr
        else .error .synErr
    else if c < 32 then .error .synErr
    else scanStr fuel r

/-- Take the longest prefix of decimal digits. -/
def takeDigits : List Byte → List Byte × List Byte
  | [] => ([], [])
  | c :: r =>
    if isDigit c then
      let (ds, rest) := takeDigits r
      (c :: ds, rest)
    else ([], c :: r)

/-- A scanned JSON number literal: sign, integer digits, fraction digits
(empty when there is no fraction), exponent sign and digits (empty when there
is no exponent). -/
structure NumLit where
  neg : Bool
  intDigits : List Byte
  fracDigits : List Byte
  expNeg : Bool
  expDigits : List Byte
deriving DecidableEq

/-- Scan a JSON number literal per the `encoding/json` scanner states
(`stateNeg`, `state0`, `state1`, `stateDot`, `stateDot0`, `stateE`,
`stateESign`, `stateE0`).  The literal ends at the first byte that cannot
continue it (that byte and everything after it are returned as the rest, as
in the scanner's delayed `scanEnd`); a leading `0` accepts no further integer
digits.  Ending the input where the literal is incomplete is
`io.ErrUnexpectedEOF`; an impossible byte inside the literal is a
`*SyntaxError`. -/
def scanNum (l : List Byte) : Except JErr (NumLit × List Byte) :=
  let (neg, r0) :=
    match l with
    | 45 :: r => (true, r)
    | _ => (false, l)
  match r0 with
  | [] => .error .unexpectedEOFErr
  | c :: cr =>
    if !isDigit c then .error .synErr
    else
      let (ids, r1) := if c == 48 then ([c], cr) else takeDigits r0
      let fracStep : Except JErr (List Byte × List Byte) :=
        match r1 with
        | 46 :: r2 =>
          match r2 with
          | [] => .error .unexpectedEOFErr
          | d :: _ =>
            if isDigit d then .ok (takeDigits r2)
            else .error .synErr
        | _ => .ok ([], r1)
      match fracStep with
      | .error e => .error e
      | .ok (fds, r3) =>
        match r3 with
        | 101 :: r4 | 69 :: r4 =>
          let (esgn, r5) :=
            match r4 with
            | 43 :: r5 => (false, r5)
            | 45 :: r5 => (true, r5)
            | _ => (false, r4)
          match r5 with
          | [] => .error .unexpectedEOFErr
          | d :: _ =>
            if isDigit d then
              let (eds, r6) := takeDigits r5
              .ok (⟨neg, ids, fds, esgn, eds⟩, r6)
            else .error .synErr
        | _ => .ok (⟨neg, ids, fds, false, []⟩, r3)

/-- Numeric value of a digit string. -/
def digitsVal (l : List Byte) : Nat := l.foldl (fun acc c => 10 * acc + (c - 48)) 0

/-- The combined decimal mantissa of a literal (integer and fraction digits). -/
def NumLit.mantissa (n : NumLit) : Nat := digitsVal (n.intDigits ++ n.fracDigits)

/-- The power of ten the mantissa is scaled by, so that the literal's exact
value is `± mantissa * 10 ^ exp10`. -/
def NumLit.exp10 (n : NumLit) : Int :=
  (if n.expNeg then -(digitsVal n.expDigits : Int) else (digitsVal n.expDigits : Int))
    - n.fracDigits.length

/-- The smallest magnitude that `strconv.ParseFloat` rounds to `±Inf` (the
midpoint between the largest finite `float64`, `(2^53-1)·2^971`, and `2^1024`;
ties round away from the odd maximal mantissa). -/
def floatOverflowThreshold : Nat := (2 ^ 54 - 1) * 2 ^ 970

/-- Whether `strconv.ParseFloat` reports `ErrRange` for the literal, i.e.
whether its exact decimal magnitude reaches `floatOverflowThreshold`.
Underflow to zero produces no error. -/
def NumLit.overflows (n : NumLit) : Bool :=
  n.mantissa != 0 &&
    (match n.exp10 with
     | .ofNat e => decide (floatOverflowThreshold ≤ n.mantissa * 10 ^ e)
     | .negSucc k => decide (floatOverflowThreshold * 10 ^ (k + 1) ≤ n.mantissa))

/-- The exact rational value of the literal.  (The Go code stores the IEEE-754
rounding of this value; no claim observes the stored float's numeric value,
so the embedding keeps the exact value.) -/
def NumLit.toRat (n : NumLit) : ℚ :=
  (if n.neg then -1 else 1) * (n.mantissa : ℚ) * (10 : ℚ) ^ n.exp10

/-- The kinds of token `Decoder.Token` can yield for the inputs `TypeOf`
hands it: a delimiter (`json.Delim`), a string, or the literals. -/
inductive GoToken
  | delim
  | str
  | jnull
  | jbool
  | jnum
deriving DecidableEq

/-- Match a literal's remaining bytes one at a time (the scanner's
`stateT`/`stateTr`/... states): a wrong byte is a `*SyntaxError`, running out
of input is `io.ErrUnexpectedEOF`, and once the literal is complete any
trailing bytes are left unread (the scanner's delayed `scanEnd`). -/
def expectLit : List Byte → List Byte → GoToken → Except JErr GoToken
  | [], _, t => .ok t
  | _ :: _, [], _ => .error .unexpectedEOFErr
  | e :: es, c :: cs, t =>
    if c == e then expectLit es cs t else .error .synErr

/-- Model of `encoding/json` `Decoder.Token()` called once at the start of the
stream, as `typeOfFromBytes` does.  `peek` skips whitespace (no token left is
`io.EOF`); `{`/`[` yield a `json.Delim` token; `}`/`]`/`,`/`:` are token
errors at top level; a string, literal or number is read through
`Decode`/`readValue`, which stops at the first byte after a complete value
(recording but not returning any complaint about that byte) and converts a
number with `strconv.ParseFloat`, turning a `float64` range failure into an
`*UnmarshalTypeError`. -/
def decToken (b : List Byte) : Except JErr GoToken :=
  match skipWS b with
  | [] => .error .eofErr
  | c :: r =>
    if c == 123 || c == 91 then .ok .delim
    else if c == 125 || c == 93 || c == 44 || c == 58 then .error .synErr
    else if c == 34 then
      match scanStr (r.length + 1) r with
      | .ok _ => .ok .str
      | .error e => .error e
    else if c == 110 then expectLit [117, 108, 108] r .jnull
    else if c == 116 then expectLit [114, 117, 101] r .jbool
    else if c == 102 then expectLit [97, 108, 115, 101] r .jbool
    else if c == 45 || isDigit c then
      match scanNum (c :: r) with
      | .error e => .error e
      | .ok (n, _) => if n.overflows then .error .typeErr else .ok .jnum
    else .error .synErr

/-- `TypeOf` / `typeOfFromBytes` from typeof.go: empty input fails with
`ErrEmpty`; a first byte `{`, `[` or `"` classifies as `Object`, `Array`,
`String` without reading further; otherwise the decoder's next token decides:
`nil` is `Null`, `bool` is `Boolean`, `float64` is `Number`, any other token
fails with `ErrUnknownType`, and a token error is propagated. -/
def TypeOf (b : List Byte) : JSONType × Option JErr :=
  match b with
  | [] => (.InvalidJSON, some .empty)
  | 123 :: _ => (.Object, none)
  | 91 :: _ => (.Array, none)
  | 34 :: _ => (.String, none)
  | _ =>
    match decToken b with
    | .error e => (.InvalidJSON, some e)
    | .ok .jnull => (.Null, none)
    | .ok .jbool => (.Boolean, none)
    | .ok .jnum => (.Number, none)
    | .ok _ => (.InvalidJSON, some .unknownType)

/-- Match a literal completely (used by the validity scanner, where a
misspelled literal is simply invalid). -/
def matchLit : List Byte → List Byte → Option (List Byte)
  | [], r => some r
  | _ :: _, [] => none
  | e :: es, c :: cs => if c == e then matchLit es cs else none

mutual

/-- One JSON value, per the `encoding/json` scanner grammar used by
`checkValid`: an object, an array, a string, one of the literals `null`,
`true`, `false`, or a number.  Returns the input following the value.  The
`fuel` argument only forces termination; every recursive call consumes at
least one byte, so `length + 1` fuel never runs out. -/
def parseVal : Nat → List Byte → Option (List Byte)
  | 0, _ => none
  | _ + 1, [] => none
  | fuel + 1, c :: r =>
    if c == 123 then parseObjBody fuel (skipWS r)
    else if c == 91 then parseArrBody fuel (skipWS r)
    else if c == 34 then
      match scanStr (r.length + 1) r with
      | .ok rest => some rest
      | .error _ => none
    else if c == 110 then matchLit [117, 108, 108] r
    else if c == 116 then matchLit [114, 117, 101] r
    else if c == 102 then matchLit [97, 108, 115, 101] r
    else if c == 45 || isDigit c then
      match scanNum (c :: r) with
      | .ok (_, rest) => some rest
      | .error _ => none
    else none

/-- Inside an object, after the `{` (and whitespace): either `}` or the first
`"key": value` member. -/
def parseObjBody : Nat → List Byte → Option (List Byte)
  | 0, _ => none
  | _ + 1, 125 :: r => some r
  | fuel + 1, 34 :: r =>
    match scanStr (r.length + 1) r with
    | .error _ => none
    | .ok r1 =>
      match skipWS r1 with
      | 58 :: r2 =>
        match parseVal fuel (skipWS r2) with
        | none => none
        | some r3 => parseObjTail fuel (skipWS r3)
      | _ => none
  | _ + 1, _ => none

/-- Inside an object, after a member: either `}` or `, "key": value`. -/
def parseObjTail : Nat → List Byte → Option (List Byte)
  | 0, _ => none
  | _ + 1, 125 :: r => some r
  | fuel + 1, 44 :: r =>
    match skipWS r with
    | 34 :: r1 =>
      match scanStr (r1.length + 1) r1 with
      | .error _ => none
      | .ok r2 =>
        match skipWS r2 with
        | 58 :: r3 =>
          match parseVal fuel (skipWS r3) with
          | none => none
          | some r4 => parseObjTail fuel (skipWS r4)
        | _ => none
    | _ => none
  | _ + 1, _ => none

/-- Inside an array, after the `[` (and whitespace): either `]` or the first
element. -/
def parseArrBody : Nat → List Byte → Option (List Byte)
  | 0, _ => none
  | _ + 1, 93 :: r => some r
  | fuel + 1, l =>
    match parseVal fuel l with
    | none => none
    | some r1 => parseArrTail fuel (skipWS r1)

/-- Inside an array, after an element: either `]` or `, element`. -/
def parseArrTail : Nat → List Byte → Option (List Byte)
  | 0, _ => none
  | _ + 1, 93 :: r => some r
  | fuel + 1, 44 :: r =>
    match parseVal fuel (skipWS r) with
    | none => none
    | some r1 => parseArrTail fuel (skipWS r1)
  | _ + 1, _ => none

end

/-- Model of `encoding/json`'s `checkValid` (run by `json.Unmarshal` before
anything else): exactly one complete JSON value, surrounded only by
whitespace. -/
def checkValid (b : List Byte) : Bool :=
  match parseVal (b.length + 1) (skipWS b) with
  | some rest => skipWS rest == []
  | none => false

/-- The decode targets a `Payload`'s composite factory can produce in this
development: the Go `nil` interface value, the default object target
`*map[string]interface{}` (`WithDefaultObject`), or the default array target
`*[]interface{}` (`WithDefaultArray`). -/
inductive GoTarget
  | nil
  | objMap
  | arrSlice
deriving DecidableEq

/-- Model of `json.Unmarshal(b, v)` for the targets above: the input is
validated first (a malformed input is a `*SyntaxError`); a `nil` target is an
`*InvalidUnmarshalError`; decoding a JSON `null` into any pointer target is a
no-op success; otherwise `*map[string]interface{}` accepts exactly an object
and `*[]interface{}` exactly an array, anything else being an
`*UnmarshalTypeError`. -/
def goUnmarshal (b : List Byte) (tgt : GoTarget) : Option JErr :=
  if !checkValid b then some .synErr
  else
    match tgt with
    | .nil => some .nilTargetErr
    | .objMap =>
      match skipWS b with
      | 123 :: _ => none
      | 110 :: _ => none
      | _ => some .typeErr
    | .arrSlice =>
      match skipWS b with
      | 91 :: _ => none
      | 110 :: _ => none
      | _ => some .typeErr

/-- Model of `strconv.ParseInt(s, 10, 64)`: an optional sign, then at least
one digit and nothing else (`ErrSyntax` otherwise), with the value required
to fit in `int64` (`ErrRange` otherwise; Go then stores the clamped bound,
which the package never observes because the mapping is invalidated). -/
def parseIntGo (b : List Byte) : Except JErr Int :=
  match b with
  | [] => .error .numSynErr
  | c :: r =>
    let (neg, ds) :=
      if c == 45 then (true, r) else if c == 43 then (false, r) else (false, b)
    if ds.isEmpty || !ds.all isDigit then .error .numSynErr
    else
      let v := digitsVal ds
      if neg then
        if v ≤ 2 ^ 63 then .ok (-(v : Int)) else .error .numRangeErr
      else
        if v ≤ 2 ^ 63 - 1 then .ok (v : Int) else .error .numRangeErr

/-- Model of `strconv.ParseUint(s, 10, 64)`: at least one digit and nothing
else, no sign allowed, value below `2^64`. -/
def parseUintGo (b : List Byte) : Except JErr Nat :=
  if b.isEmpty || !b.all isDigit then .error .numSynErr
  else
    let v := digitsVal b
    if v ≤ 2 ^ 64 - 1 then .ok v else .error .numRangeErr

/-- Model of `strconv.ParseFloat(s, 64)` on decimal inputs: an optional sign,
a mantissa of digits with at most one dot (at least one digit overall), and
an optional exponent, spanning the whole string; a magnitude reaching the
`float64` overflow threshold is `ErrRange`.  (The special names `Inf`/`NaN`
and hexadecimal floats, which `ParseFloat` also accepts, are unreachable
here: `TypeOf` only ever classifies scanner-shaped numbers as `Number`.)
The result is the exact rational value; the Go code stores its IEEE-754
rounding, which no claim observes. -/
def parseFloatGo (b : List Byte) : Except JErr ℚ :=
  match b with
  | [] => .error .numSynErr
  | c :: r =>
    let (neg, r0) :=
      if c == 45 then (true, r) else if c == 43 then (false, r) else (false, b)
    let (ids, r1) := takeDigits r0
    let dotStep : Option (List Byte × List Byte) :=
      match r1 with
      | 46 :: r2 =>
        let (fds, r3) := takeDigits r2
        some (fds, r3)
      | _ => some ([], r1)
    match dotStep with
    | none => .error .numSynErr
    | some (fds, r4) =>
      if ids.isEmpty && fds.isEmpty then .error .numSynErr
      else
        let expStep : Option (Bool × List Byte) :=
          match r4 with
          | 101 :: r5 | 69 :: r5 =>
            let (esgn, r6) :=
              match r5 with
              | 43 :: r6 => (false, r6)
              | 45 :: r6 => (true, r6)
              | _ => (false, r5)
            let (eds, r7) := takeDigits r6
            if eds.isEmpty || !r7.isEmpty then none else some (esgn, eds)
          | [] => some (false, [])
          | _ => none
        match expStep with
        | none => .error .numSynErr
        | some (esgn, eds) =>
          let lit : NumLit := ⟨neg, ids, fds, esgn, eds⟩
          if lit.overflows then .error .numRangeErr else .ok lit.toRat

/-- Value of an ASCII hexadecimal digit. -/
def hexVal (c : Byte) : Nat :=
  if isDigit c then c - 48 else if 97 ≤ c then c - 87 else c - 55

/-- Read exactly `n` hexadecimal digits, accumulating their value. -/
def takeHex : Nat → List Byte → Option (Nat × List Byte)
  | 0, r => some (0, r)
  | _ + 1, [] => none
  | n + 1, c :: r =>
    if isHexDigit c then
      match takeHex n r with
      | some (v, rest) => some (hexVal c * 16 ^ n + v, rest)
      | none => none
    else none

/-- Model of `strconv.Unquote` on a double-quoted string, as used for the
`String` payload slot: the input must be exactly one `"`-quoted string, raw
newlines are rejected, a backslash introduces one of Go's escapes (the simple
escapes, `\x`+2, `\u`+4 or `\U`+8 hex digits, or three octal digits; JSON's
`\/` is *not* a Go escape and is rejected), and every other byte stands for
itself. -/
def unquoteLoop : Nat → List Byte → List Char → Option String
  | 0, _, _ => none
  | _ + 1, [], _ => none
  | fuel + 1, c :: r, acc =>
    if c == 34 then
      if r.isEmpty then some (String.mk acc.reverse) else none
    else if c == 10 then none
    else if c == 92 then
      match r with
      | [] => none
      | e :: r2 =>
        if e == 97 then unquoteLoop fuel r2 (Char.ofNat 7 :: acc)
        else if e == 98 then unquoteLoop fuel r2 (Char.ofNat 8 :: acc)
        else if e == 102 then unquoteLoop fuel r2 (Char.ofNat 12 :: acc)
        else if e == 110 then unquoteLoop fuel r2 (Char.ofNat 10 :: acc)
        else if e == 114 then unquoteLoop fuel r2 (Char.ofNat 13 :: acc)
        else if e == 116 then unquoteLoop fuel r2 (Char.ofNat 9 :: acc)
        else if e == 118 then unquoteLoop fuel r2 (Char.ofNat 11 :: acc)
        else if e == 92 then unquoteLoop fuel r2 (Char.ofNat 92 :: acc)
        else if e == 39 then unquoteLoop fuel r2 (Char.ofNat 39 :: acc)
        else if e == 34 then unquoteLoop fuel r2 (Char.ofNat 34 :: acc)
        else if e == 120 then
          match r2 with
          | h1 :: h2 :: r3 =>
            if isHexDigit h1 && isHexDigit h2 then
              unquoteLoop fuel r3 (Char.ofNat (hexVal h1 * 16 + hexVal h2) :: acc)
            else none
          | _ => none
        else if e == 117 || e == 85 then
          let wid := if e == 117 then 4 else 8
          match takeHex wid r2 with
          | some (v, r3) => unquoteLoop fuel r3 (Char.ofNat v :: acc)
          | none => none
        else if 48 ≤ e && e ≤ 55 then
          match r2 with
          | o2 :: o3 :: r3 =>
            if (48 ≤ o2 && o2 ≤ 55) && (48 ≤ o3 && o3 ≤ 55) then
              unquoteLoop fuel r3
                (Char.ofNat (((e - 48) * 8 + (o2 - 48)) * 8 + (o3 - 48)) :: acc)
            else none
          | _ => none
        else none
    else unquoteLoop fuel r (Char.ofNat c :: acc)

/-- `strconv.Unquote` applied to the raw bytes of a `String`-classified
payload (whose first byte is `"`); on failure the Go call returns the empty
string alongside `ErrSyntax`. -/
def unquoteGo (b : List Byte) : Option String :=
  match b with
  | 34 :: r => unquoteLoop (r.length + 1) r []
  | _ => none

/-- The value `Payload.Get` returns (a Go `interface{}`; `none` for the nil
interface). -/
inductive GoValue
  | vBool (b : Bool)
  | vInt (i : Int)
  | vUint (u : Nat)
  | vFloat (q : ℚ)
  | vString (s : String)
  | vOther (t : GoTarget)
deriving DecidableEq

/-- `Payload` from payload.go.  A `PayloadFactory` argument is modelled by an
`Option GoTarget`: `none` is a `nil` function value, `some t` a non-nil
function returning the target `t` (the factories the package and the claims
use are pure, so a factory is determined by what it returns; note `t` itself
may be `GoTarget.nil`, a non-nil factory returning a nil `interface{}`).
The `noCopy` marker field has no behaviour and is omitted. -/
structure Payload where
  /-- `with`, the per-`JSONType` acceptance array (a Lean keyword, hence the
  prime). -/
  with' : JSONType → Bool
  jsonType : JSONType
  mapping : GoMapping
  pBool : Bool
  numType : GoMapping
  pInt : Int
  pUint : Nat
  pFloat : ℚ
  pString : String
  otherFactory : Option GoTarget
  pOther : GoTarget

/-- `&Payload{}`: the zero value, as produced by `AcquirePayload` on an empty
pool. -/
def freshPayload : Payload :=
  ⟨fun _ => false, .InvalidJSON, .GoInvalidMapping, false, .GoInvalidMapping,
    0, 0, 0, "", none, .nil⟩

/-- `Payload.Clear`: drop all decoded data, keep the configuration. -/
def Payload.Clear (p : Payload) : Payload :=
  { p with
    jsonType := .InvalidJSON
    mapping := .GoInvalidMapping
    pBool := false
    pInt := 0
    pUint := 0
    pFloat := 0
    pString := ""
    pOther := .nil }

/-- `Payload.Reset`: `Clear` plus dropping the whole configuration. -/
def Payload.Reset (p : Payload) : Payload :=
  { p.Clear with
    with' := fun _ => false
    otherFactory := none
    numType := .GoInvalidMapping }

/-- Point update of the acceptance array. -/
def updWith (w : JSONType → Bool) (t0 : JSONType) (v : Bool) : JSONType → Bool :=
  fun t => if t = t0 then v else w t

/-- The value of a Go `enable ...bool` parameter: enabled when no argument is
passed, else the first argument. -/
def goEnable (enable : List Bool) : Bool := enable.headD true

/-- `Payload.WithNull`. -/
def Payload.WithNull (p : Payload) (enable : List Bool) : Payload :=
  { p with with' := updWith p.with' .Null (goEnable enable) }

/-- `Payload.WithBoolean`. -/
def Payload.WithBoolean (p : Payload) (enable : List Bool) : Payload :=
  { p with with' := updWith p.with' .Boolean (goEnable enable) }

/-- `Payload.WithString`. -/
def Payload.WithString (p : Payload) (enable : List Bool) : Payload :=
  { p with with' := updWith p.with' .String (goEnable enable) }

/-- `Payload.withNum`: enabling accepts `Number` and records the numeric
mapping; disabling turns `Number` off only when the mapping being disabled is
the active one. -/
def Payload.withNum (p : Payload) (m : GoMapping) (enable : List Bool) : Payload :=
  if goEnable enable then
    { p with with' := updWith p.with' .Number true, numType := m }
  else if p.numType = m ∧ p.with' .Number then
    { p with with' := updWith p.with' .Number false }
  else p

/-- `Payload.WithFloat`. -/
def Payload.WithFloat (p : Payload) (enable : List Bool) : Payload :=
  p.withNum .GoFloat enable

/-- `Payload.WithInt`. -/
def Payload.WithInt (p : Payload) (enable : List Bool) : Payload :=
  p.withNum .GoInt enable

/-- `Payload.WithUint`. -/
def Payload.WithUint (p : Payload) (enable : List Bool) : Payload :=
  p.withNum .GoUint enable

/-- `Payload.WithNumber`: enabling behaves like `WithInt`; disabling clears
acceptance of `Number` outright. -/
def Payload.WithNumber (p : Payload) (enable : List Bool) : Payload :=
  let p := { p with with' := updWith p.with' .Number (goEnable enable) }
  if p.with' .Number then p.WithInt [] else p

/-- `Payload.withOther`: the type is accepted iff the (first) factory argument
is a non-nil function, and the single shared `otherFactory` field is set to
that argument. -/
def Payload.withOther (p : Payload) (t : JSONType) (f : Option GoTarget) : Payload :=
  { p with with' := updWith p.with' t (f ≠ none), otherFactory := f }

/-- `Payload.WithArray`: `withOther` on `Array` with `WithDefaultArray`
appended as the default factory. -/
def Payload.WithArray (p : Payload) (f : List (Option GoTarget)) : Payload :=
  p.withOther .Array (f.headD (some .arrSlice))

/-- `Payload.WithObject`: `withOther` on `Object` with `WithDefaultObject`
appended as the default factory. -/
def Payload.WithObject (p : Payload) (f : List (Option GoTarget)) : Payload :=
  p.withOther .Object (f.headD (some .objMap))

/-- `bTrue` from jsonutils.go: the four bytes `true`. -/
def bTrue : List Byte := [116, 114, 117, 101]

/-- The outcome of `Payload.UnmarshalJSON`: a normal return (`ok` or `fail`),
or a runtime panic (calling a nil `otherFactory` function). -/
inductive URes
  | ok
  | fail (e : JErr)
  | panicked
deriving DecidableEq

/-- The outcome of the `switch p.jsonType` body of `UnmarshalJSON`: a normal
return with the local `err` variable, or a panic (calling a nil
`otherFactory` function value). -/
inductive BodyRes
  | ret (e : Option JErr)
  | panicked
deriving DecidableEq

/-- The `switch p.jsonType` body of `Payload.UnmarshalJSON` (payload.go lines
134–161), run on a cleared payload whose `jsonType` has been set to the
accepted classified type; yields the updated payload and the local `err`.
On a `strconv` parse error Go additionally stores the parser's conventional
return value (zero or a clamped bound) in the numeric slot; the slot then
keeps its cleared zero here, and is unobservable either way because the
caller invalidates the mapping. -/
def Payload.switchBody (p : Payload) (b : List Byte) : Payload × BodyRes :=
  match p.jsonType with
  | .Object | .Array =>
    match p.otherFactory with
    | none => ({ p with mapping := .GoOther }, .panicked)
    | some tgt => ({ p with mapping := .GoOther, pOther := tgt }, .ret (goUnmarshal b tgt))
  | .Null => ({ p with mapping := .GoNil }, .ret none)
  | .String =>
    match unquoteGo b with
    | some s => ({ p with mapping := .GoString, pString := s }, .ret none)
    | none => ({ p with mapping := .GoString }, .ret (some .quoteErr))
  | .Number =>
    match p.numType with
    | .GoInt =>
      match parseIntGo b with
      | .ok v => ({ p with mapping := .GoInt, pInt := v }, .ret none)
      | .error e => ({ p with mapping := .GoInt }, .ret (some e))
    | .GoFloat =>
      match parseFloatGo b with
      | .ok v => ({ p with mapping := .GoFloat, pFloat := v }, .ret none)
      | .error e => ({ p with mapping := .GoFloat }, .ret (some e))
    | .GoUint =>
      match parseUintGo b with
      | .ok v => ({ p with mapping := .GoUint, pUint := v }, .ret none)
      | .error e => ({ p with mapping := .GoUint }, .ret (some e))
    | m => ({ p with mapping := m }, .ret none)
  | .Boolean => ({ p with mapping := .GoBool, pBool := bTrue == b }, .ret none)
  | .InvalidJSON => (p, .ret none)

/-- `Payload.UnmarshalJSON` from payload.go: clear, classify with `TypeOf`
(propagating its error), reject unaccepted types with `ErrUnexpectedType`,
run the switch body, and finally — exactly like the Go code's trailing
`if err != nil` — reset the mapping to `GoInvalidMapping` whenever the body
produced an error, returning that error. -/
def Payload.UnmarshalJSON (p0 : Payload) (b : List Byte) : Payload × URes :=
  let p := p0.Clear
  match TypeOf b with
  | (t, some e) => ({ p with jsonType := t }, .fail e)
  | (t, none) =>
    let p := { p with jsonType := t }
    if t = .InvalidJSON ∨ p.with' t = false then (p, .fail .unexpectedType)
    else
      match p.switchBody b with
      | (p', .panicked) => (p', .panicked)
      | (p', .ret none) => (p', .ok)
      | (p', .ret (some e)) => ({ p' with mapping := .GoInvalidMapping }, .fail e)

/-- `Payload.Get`: the stored value and the mapping; never fails. -/
def Payload.Get (p : Payload) : Option GoValue × GoMapping :=
  let ret : Option GoValue :=
    match p.mapping with
    | .GoOther => some (.vOther p.pOther)
    | .GoString => some (.vString p.pString)
    | .GoFloat => some (.vFloat p.pFloat)
    | .GoInt => some (.vInt p.pInt)
    | .GoUint => some (.vUint p.pUint)
    | .GoBool => some (.vBool p.pBool)
    | _ => none
  (ret, p.mapping)

/-- `GoMapping.panicIfNot`, inlined into each typed accessor: an accessor
whose mapping differs from the live tag panics with `ErrUnexpectedMapping`
(the `.error` case models the panic). -/
def Payload.GetOther (p : Payload) : Except JErr GoTarget :=
  if p.mapping = .GoOther then .ok p.pOther else .error .unexpectedMapping

/-- `Payload.GetObject`, an alias of `GetOther`. -/
def Payload.GetObject (p : Payload) : Except JErr GoTarget := p.GetOther

/-- `Payload.GetArray`, an alias of `GetOther`. -/
def Payload.GetArray (p : Payload) : Except JErr GoTarget := p.GetOther

/-- `Payload.GetString` (panics, via `panicIfNot`, unless the tag is
`GoString`). -/
def Payload.GetString (p : Payload) : Except JErr String :=
  if p.mapping = .GoString then .ok p.pString else .error .unexpectedMapping

/-- `Payload.GetBool`. -/
def Payload.GetBool (p : Payload) : Except JErr Bool :=
  if p.mapping = .GoBool then .ok p.pBool else .error .unexpectedMapping

/-- `Payload.GetInt`. -/
def Payload.GetInt (p : Payload) : Except JErr Int :=
  if p.mapping = .GoInt then .ok p.pInt else .error .unexpectedMapping

/-- `Payload.GetUint`. -/
def Payload.GetUint (p : Payload) : Except JErr Nat :=
  if p.mapping = .GoUint then .ok p.pUint else .error .unexpectedMapping

/-- `Payload.GetFloat`. -/
def Payload.GetFloat (p : Payload) : Except JErr ℚ :=
  if p.mapping = .GoFloat then .ok p.pFloat else .error .unexpectedMapping

/-- `Payload.IsNil`. -/
def Payload.IsNil (p : Payload) : Bool := p.mapping = .GoNil

/-- `Payload.GetMapping`. -/
def Payload.GetMapping (p : Payload) : GoMapping := p.mapping

/-- `Payload.GetJSONType`. -/
def Payload.GetJSONType (p : Payload) : JSONType := p.jsonType

/-! ## Theorems -/

/-- C1 (code bug): after `WithObject()` then `WithArray()` (both default
factories), decoding the object input `{"some":"data"}` does **not** succeed:
`WithArray` overwrote the single shared `otherFactory` with the array
factory, so the object input is unmarshalled into `*[]interface{}` and fails
with an `*UnmarshalTypeError`, leaving the tag `GoInvalidMapping` (the
classified type `Object` is still recorded).  This contradicts the claim and
the repository's own test "Bugfix: array and object factory overwrite each
other", which expects success with tag `GoOther`. -/
theorem c1_object_then_array_decode_fails :
    (((freshPayload.WithObject []).WithArray []).UnmarshalJSON
        (bytesOf "\x7b\"some\":\"data\"\x7d")).2 = .fail .typeErr ∧
    (((freshPayload.WithObject []).WithArray []).UnmarshalJSON
        (bytesOf "\x7b\"some\":\"data\"\x7d")).1.GetMapping = .GoInvalidMapping ∧
    (((freshPayload.WithObject []).WithArray []).UnmarshalJSON
        (bytesOf "\x7b\"some\":\"data\"\x7d")).1.GetJSONType = .Object ∧
    ((freshPayload.WithObject []).WithArray []).otherFactory = some .arrSlice := by
  decide

/-- C2 (counterexample): a `Payload` whose object factory is a non-nil
function returning a nil target accepts `Object`, yet decoding the accepted,
well-formed object input `{}` fails with the parser's
`*InvalidUnmarshalError` ("json: Unmarshal(nil)"), not with
`ErrUnexpectedType` as the claim states. -/
theorem c2_counterexample_nil_factory :
    (freshPayload.WithObject [some .nil]).with' .Object = true ∧
    TypeOf (bytesOf "\x7b\x7d") = (.Object, none) ∧
    ((freshPayload.WithObject [some .nil]).UnmarshalJSON (bytesOf "\x7b\x7d")).2
      ≠ .fail .unexpectedType ∧
    ((freshPayload.WithObject [some .nil]).UnmarshalJSON (bytesOf "\x7b\x7d")).2
      = .fail .nilTargetErr := by
  decide

/-- C2 (amended): for every input classified as `Object` or `Array` and
accepted, if the configured factory is a non-nil function returning a nil
target, `UnmarshalJSON` fails — without panicking — with one of the
underlying parser's errors (`*InvalidUnmarshalError` for well-formed input, a
`*SyntaxError` otherwise), never with `ErrUnexpectedType`, and the tag is
left `GoInvalidMapping`. -/
theorem c2_nil_factory_parser_error (p : Payload) (b : List Byte) (t : JSONType)
    (ht : t = .Object ∨ t = .Array) (hc : TypeOf b = (t, none))
    (ha : p.with' t = true) (hf : p.otherFactory = some .nil) :
    ∃ e, (p.UnmarshalJSON b).2 = .fail e ∧ e ≠ .unexpectedType ∧
      (e = .nilTargetErr ∨ e = .synErr) ∧
      (p.UnmarshalJSON b).1.GetMapping = .GoInvalidMapping := by
  rcases ht with rfl | rfl <;>
    · unfold Payload.UnmarshalJSON Payload.switchBody
      rw [hc]
      simp only [Payload.Clear, Payload.GetMapping, goUnmarshal, ha, hf]
      cases hcv : checkValid b <;> simp [hcv]

/-- C2 (witness for the amended theorem). -/
theorem c2_witness :
    ∃ e, ((freshPayload.WithObject [some .nil]).UnmarshalJSON
        (bytesOf "\x7b\x7d")).2 = .fail e ∧ e ≠ .unexpectedType ∧
      (e = .nilTargetErr ∨ e = .synErr) ∧
      ((freshPayload.WithObject [some .nil]).UnmarshalJSON
        (bytesOf "\x7b\x7d")).1.GetMapping = .GoInvalidMapping :=
  c2_nil_factory_parser_error (freshPayload.WithObject [some .nil])
    (bytesOf "\x7b\x7d") .Object (Or.inl rfl) (by decide) (by decide) (by decide)

/-- C3 (code bug): `TypeOf` on `whatever` and `!` returns the `Invalid` type
together with the tokenizer's `*SyntaxError` ("invalid character ... looking
for beginning of value"), not `ErrUnknownType`; the `ErrUnknownType` branch
of typeof.go is only reached when the token parses but is not a
null/boolean/number (e.g. a string or delimiter behind leading whitespace),
while the repository's typeof_test.go expects exactly "unknown type" here. -/
theorem c3_unknown_literals_syntax_error :
    TypeOf (bytesOf "whatever") = (.InvalidJSON, some .synErr) ∧
    TypeOf (bytesOf "!") = (.InvalidJSON, some .synErr) ∧
    JErr.synErr ≠ JErr.unknownType ∧
    TypeOf (bytesOf " \"str\"") = (.InvalidJSON, some .unknownType) := by
  decide

/-- C4: whenever `UnmarshalJSON` returns an error, the mapping reported by
`GetMapping` is `GoInvalidMapping`; in particular a `Payload` configured only
with `WithUint()` decoding `34.1` fails with a `strconv` syntax error and is
left with mapping `GoInvalidMapping`. -/
theorem c4_error_leaves_invalid_mapping :
    (∀ (p : Payload) (b : List Byte) (e : JErr),
      (p.UnmarshalJSON b).2 = .fail e →
        (p.UnmarshalJSON b).1.GetMapping = .GoInvalidMapping) ∧
    ((freshPayload.WithUint []).UnmarshalJSON (bytesOf "34.1")).2 = .fail .numSynErr ∧
    ((freshPayload.WithUint []).UnmarshalJSON (bytesOf "34.1")).1.GetMapping
      = .GoInvalidMapping := by
  refine ⟨?_, by decide, by decide⟩
  intro p b e h
  unfold Payload.UnmarshalJSON at h ⊢
  revert h
  rcases hT : TypeOf b with ⟨t, oe⟩
  rcases oe with _ | e1
  · simp only [Payload.Clear]
    by_cases hw : t = JSONType.InvalidJSON ∨ p.with' t = false
    · simp [hw, Payload.GetMapping]
    · rw [if_neg hw]
      intro h
      split at h <;> simp_all [Payload.GetMapping]
  · simp [Payload.Clear, Payload.GetMapping]

/-- C4 (witness): the universal part applied at the `WithUint()` / `34.1`
instance. -/
theorem c4_witness :
    ((freshPayload.WithUint []).UnmarshalJSON (bytesOf "34.1")).1.GetMapping
      = .GoInvalidMapping :=
  c4_error_leaves_invalid_mapping.1 (freshPayload.WithUint []) (bytesOf "34.1")
    .numSynErr (by decide)

/-- C5: each typed accessor fails fatally (panics with
`ErrUnexpectedMapping`, the `.error` case of the model) whenever its mapping
differs from the live tag, and returns the stored slot without panicking
whenever the tag matches. -/
theorem c5_typed_accessors (p : Payload) :
    (p.mapping ≠ .GoBool → p.GetBool = .error .unexpectedMapping) ∧
    (p.mapping = .GoBool → p.GetBool = .ok p.pBool) ∧
    (p.mapping ≠ .GoString → p.GetString = .error .unexpectedMapping) ∧
    (p.mapping = .GoString → p.GetString = .ok p.pString) ∧
    (p.mapping ≠ .GoInt → p.GetInt = .error .unexpectedMapping) ∧
    (p.mapping = .GoInt → p.GetInt = .ok p.pInt) ∧
    (p.mapping ≠ .GoUint → p.GetUint = .error .unexpectedMapping) ∧
    (p.mapping = .GoUint → p.GetUint = .ok p.pUint) ∧
    (p.mapping ≠ .GoFloat → p.GetFloat = .error .unexpectedMapping) ∧
    (p.mapping = .GoFloat → p.GetFloat = .ok p.pFloat) ∧
    (p.mapping ≠ .GoOther → p.GetOther = .error .unexpectedMapping ∧
      p.GetObject = .error .unexpectedMapping ∧
      p.GetArray = .error .unexpectedMapping) ∧
    (p.mapping = .GoOther → p.GetOther = .ok p.pOther ∧
      p.GetObject = .ok p.pOther ∧ p.GetArray = .ok p.pOther) := by
  refine ⟨?_, ?_, ?_, ?_, ?_, ?_, ?_, ?_, ?_, ?_, ?_, ?_⟩ <;> intro h <;>
    simp [Payload.GetBool, Payload.GetString, Payload.GetInt, Payload.GetUint,
      Payload.GetFloat, Payload.GetOther, Payload.GetObject, Payload.GetArray, h]

/-- C5 (witness): on a `Payload` whose tag is `GoString` holding `"hello"`,
`GetBool` panics with `ErrUnexpectedMapping` and `GetString` returns the
value. -/
theorem c5_witness :
    ({ freshPayload with mapping := .GoString, pString := "hello" } : Payload).GetBool
      = .error .unexpectedMapping ∧
    ({ freshPayload with mapping := .GoString, pString := "hello" } : Payload).GetString
      = .ok "hello" :=
  ⟨(c5_typed_accessors { freshPayload with mapping := .GoString, pString := "hello" }).1
      (by decide),
    (c5_typed_accessors { freshPayload with mapping := .GoString, pString := "hello" }).2.2.2.1
      (by decide)⟩

/-- C6: when classification succeeds but the classified type is not accepted,
`UnmarshalJSON` fails with exactly `ErrUnexpectedType`, the classified
`JSONType` remains observable through `GetJSONType`, and the tag stays
`GoInvalidMapping`. -/
theorem c6_unaccepted_type_error (p : Payload) (b : List Byte) (t : JSONType)
    (hc : TypeOf b = (t, none)) (ha : p.with' t = false) :
    (p.UnmarshalJSON b).2 = .fail .unexpectedType ∧
    (p.UnmarshalJSON b).1.GetJSONType = t ∧
    (p.UnmarshalJSON b).1.GetMapping = .GoInvalidMapping := by
  unfold Payload.UnmarshalJSON
  rw [hc]
  simp [Payload.Clear, Payload.GetMapping, Payload.GetJSONType, ha]

/-- C6 (witness): an unconfigured `Payload` decoding `true`. -/
theorem c6_witness :
    (freshPayload.UnmarshalJSON (bytesOf "true")).2 = .fail .unexpectedType ∧
    (freshPayload.UnmarshalJSON (bytesOf "true")).1.GetJSONType = .Boolean ∧
    (freshPayload.UnmarshalJSON (bytesOf "true")).1.GetMapping = .GoInvalidMapping :=
  c6_unaccepted_type_error freshPayload (bytesOf "true") .Boolean (by decide) (by decide)

/-- C7: any byte sequence whose first byte is `{` (123), `[` (91) or `"` (34)
classifies as `Object`, `Array`, `String` respectively with no error, no
matter what the remaining bytes `l` are — so the result depends on no byte
other than the first. -/
theorem c7_structural_prefix (l : List Byte) :
    TypeOf (123 :: l) = (.Object, none) ∧
    TypeOf (91 :: l) = (.Array, none) ∧
    TypeOf (34 :: l) = (.String, none) ∧
    bytesOf "\x7b" = [123] ∧ bytesOf "[" = [91] ∧ bytesOf "\"" = [34] :=
  ⟨rfl, rfl, rfl, rfl, rfl, rfl⟩

/-- C8 (code bug): `null`, `true`, `false` and in-range number literals
classify as the claim states, but the tokenizer-based `TypeOf` parses the
number into a `float64` while classifying, so the syntactically valid JSON
number literal `1e309` (beyond the largest representable double) fails with
the parser's range error instead of classifying as `Number`. -/
theorem c8_literal_classification :
    TypeOf (bytesOf "null") = (.Null, none) ∧
    TypeOf (bytesOf "true") = (.Boolean, none) ∧
    TypeOf (bytesOf "false") = (.Boolean, none) ∧
    TypeOf (bytesOf "-20") = (.Number, none) ∧
    TypeOf (bytesOf "3.141592") = (.Number, none) ∧
    TypeOf (bytesOf "18446744073709551615") = (.Number, none) ∧
    TypeOf (bytesOf "1.7976931348623157e+308") = (.Number, none) ∧
    TypeOf (bytesOf "4.9406564584124654e-324") = (.Number, none) ∧
    TypeOf (bytesOf "1e309") = (.InvalidJSON, some .typeErr) := by
  decide

/-- C9: `Reset` returns any `Payload` to the zero value, so a reset instance
and a freshly constructed one are the same state (hence observationally
equivalent): the mapping and JSON type report the invalid sentinels, `Get`
returns the nil value with `GoInvalidMapping`, and — no type being
accepted — decoding any input whose classification succeeds fails with
`ErrUnexpectedType` (inputs whose classification fails propagate the
classification error instead, exactly as on a fresh instance). -/
theorem c9_reset_observational_fresh :
    (∀ p : Payload, p.Reset = freshPayload) ∧
    freshPayload.GetMapping = .GoInvalidMapping ∧
    freshPayload.GetJSONType = .InvalidJSON ∧
    freshPayload.Get = (none, .GoInvalidMapping) ∧
    (∀ (b : List Byte) (t : JSONType), TypeOf b = (t, none) →
      (freshPayload.UnmarshalJSON b).2 = .fail .unexpectedType) := by
  refine ⟨fun p => rfl, rfl, rfl, rfl, ?_⟩
  intro b t hc
  unfold Payload.UnmarshalJSON
  rw [hc]
  simp [Payload.Clear, freshPayload]

/-- C9 (witness): the theorem applied to a configured, decoded `Payload` and
to the classification-success input `true`. -/
theorem c9_witness :
    (((freshPayload.WithBoolean []).UnmarshalJSON (bytesOf "true")).1.Reset
      = freshPayload) ∧
    (freshPayload.UnmarshalJSON (bytesOf "true")).2 = .fail .unexpectedType :=
  ⟨c9_reset_observational_fresh.1
      ((freshPayload.WithBoolean []).UnmarshalJSON (bytesOf "true")).1,
    c9_reset_observational_fresh.2.2.2.2 (bytesOf "true") .Boolean (by decide)⟩

/-- C10: every input that `TypeOf` classifies as `Boolean` and that the
`Payload` accepts decodes without error to tag `GoBool`, and the stored value
is `true` exactly when the raw bytes are the four bytes `true` (the code
compares the whole input against `bTrue`); any other `Boolean`-classified
input — such as `" true"` with a leading space, which the tokenizer still
classifies as `Boolean` — decodes without error to `false`. -/
theorem c10_boolean_decode (p : Payload) (b : List Byte)
    (hc : TypeOf b = (.Boolean, none)) (ha : p.with' .Boolean = true) :
    (p.UnmarshalJSON b).2 = .ok ∧
    (p.UnmarshalJSON b).1.GetMapping = .GoBool ∧
    ((p.UnmarshalJSON b).1.pBool = true ↔ b = bytesOf "true") := by
  have hb : bytesOf "true" = bTrue := by decide
  unfold Payload.UnmarshalJSON Payload.switchBody
  rw [hc]
  simp only [Payload.Clear, Payload.GetMapping, ha, hb]
  refine ⟨by simp, by simp, ?_⟩
  simp only [reduceCtorEq, Bool.true_eq_false, or_self, if_false, beq_iff_eq]
  exact eq_comm

/-- C10 (witness): `" true"` (leading space) is classified `Boolean`, decodes
without error, and stores `false`. -/
theorem c10_witness :
    ((freshPayload.WithBoolean []).UnmarshalJSON (bytesOf " true")).2 = .ok ∧
    ((freshPayload.WithBoolean []).UnmarshalJSON (bytesOf " true")).1.pBool = false := by
  have h := c10_boolean_decode (freshPayload.WithBoolean []) (bytesOf " true")
    (by decide) (by decide)
  exact ⟨h.1, by simpa using (h.2.2).not.mpr (by decide)⟩

end Jsonutils
